import Mathlib

/-!
Verification of the uc-hub AI-model handlers.

This file gives a shallow embedding of the two Python modules
`src/ai-models/translation/model_handler.py` and
`src/ai-models/speech-to-text/model_handler.py`, and proves the
behavioural claims about them.

Modelling conventions:
* The external collaborators (the Marian model repository reached through
  `from_pretrained`, the fastText language identifier, and the
  tokenizer/model `generate`/`decode` pipeline) are modelled as function
  parameters bundled in a `Backend`; a `.error` result stands for the
  Python call raising an exception.
* Python exceptions are modelled by an `Except PyError` result paired with
  the handler state at the moment the exception propagates (mutations made
  before the raise persist, as in Python).
* Python `float` confidence values are modelled as `Rat`; the code only
  ever constructs and compares them, never computes with them.
* Python dicts (`self.models`, `self.tokenizers`) are modelled as
  association lists with overwrite-on-insert, keyed by the optional model
  name exactly as the code keys them.
* Python `str.replace` is modelled by `pyReplace` below, with the same
  left-to-right non-overlapping replacement semantics.
-/

/-- Python `str.replace`, fuel-indexed so it is structurally recursive;
the fuel is always the length of the subject string, which suffices
because each step consumes at least one character. -/
def pyReplaceGo (old new : List Char) : Nat → List Char → List Char
  | _, [] => []
  | 0, s => s
  | Nat.succ fuel, c :: rest =>
    if old ≠ [] ∧ old.isPrefixOf (c :: rest) then
      new ++ pyReplaceGo old new fuel ((c :: rest).drop old.length)
    else
      c :: pyReplaceGo old new fuel rest

/-- Replace every non-overlapping occurrence of `old` in `s` by `new`,
scanning left to right — the semantics of Python `s.replace(old, new)`
for a non-empty `old` (the code only ever replaces non-empty patterns). -/
def pyReplaceList (old new s : List Char) : List Char :=
  pyReplaceGo old new s.length s

/-- String version of `pyReplaceList`. -/
def pyReplace (s old new : String) : String :=
  String.mk (pyReplaceList old.data new.data s.data)

/-- Does `old` occur as a contiguous sublist of the subject? -/
def hasSub (old : List Char) : List Char → Bool
  | [] => decide (old = [])
  | c :: rest => old.isPrefixOf (c :: rest) || hasSub old rest

/-- Association-list lookup, the embedding of a Python dict read. -/
def lookupA {κ α : Type} [DecidableEq κ] : List (κ × α) → κ → Option α
  | [], _ => none
  | (k, v) :: rest, key => if k = key then some v else lookupA rest key

/-- Association-list overwrite, the embedding of a Python dict write. -/
def insertA {κ α : Type} [DecidableEq κ] (key : κ) (v : α) (l : List (κ × α)) :
    List (κ × α) :=
  (key, v) :: l.filter (fun p => decide (p.1 ≠ key))

/-- Abstract Marian tokenizer: `encode` embeds `tokenizer(text, ...)` and
`decode` embeds `tokenizer.decode(ids, skip_special_tokens=True)`; a
`.error` result stands for the call raising, carrying `str(e)`. -/
structure MarianTokenizer where
  encode : String → Except String (List Nat)
  decode : List Nat → Except String String

/-- Abstract Marian model: `generate` embeds `model.generate(**inputs)`,
returning the batch of output token sequences. -/
structure MarianMTModel where
  generate : List Nat → Except String (List (List Nat))

/-- The external collaborators of the translation handler: the two
`from_pretrained` entry points of the model repository, keyed by the
(optional) model name the handler constructs, and the fastText language
identifier, returning the top `(label, confidence)` prediction. -/
structure Backend where
  tokRepo : Option String → Except String MarianTokenizer
  modRepo : Option String → Except String MarianMTModel
  detector : String → Except String (String × Rat)

/-- Mutable state of a `TranslationModelHandler`: the two cache dicts
`self.models` / `self.tokenizers`, plus a counter of materialization
attempts against the model repository (used to state the call-count
properties; the Python object has no such field, it counts the calls a
test harness would observe on the repository). -/
structure HState where
  models : List (Option String × MarianMTModel)
  tokenizers : List (Option String × MarianTokenizer)
  matCalls : Nat

/-- Errors surfaced by the handler: `http` embeds `HTTPException(status,
detail)`; `keyErr` embeds a raw `KeyError` on a dict read (possible in
`_load_model` only from states the handler itself never produces). -/
inductive PyError where
  | http (status : Nat) (detail : String)
  | keyErr (key : Option String)
deriving DecidableEq

/-- Embeds the pydantic `TranslationResponse` model. -/
structure TranslationResponse where
  translated_text : String
  detected_language : String
  confidence : Rat
deriving DecidableEq

/-- Embeds the pydantic `LanguageDetectionResponse` model. -/
structure LanguageDetectionResponse where
  detected_language : String
  confidence : Rat
deriving DecidableEq

/-- Embeds the pydantic `BatchTranslationResponse` model. -/
structure BatchTranslationResponse where
  translations : List TranslationResponse
deriving DecidableEq

namespace TranslationModelHandler

/-- Embeds `_get_model_name` (lines 64-67): returns the Helsinki-NLP model
name when both codes are truthy (non-empty) strings, `None` otherwise. -/
def getModelName (source_lang target_lang : String) : Option String :=
  if source_lang ≠ "" ∧ target_lang ≠ "" then
    some ("Helsinki-NLP/opus-mt-" ++ source_lang ++ "-" ++ target_lang)
  else
    none

/-- Embeds `_load_model` (lines 69-77).  The membership test is on
`self.models` only; on a miss the handler attempts one materialization
(counted in `matCalls`): first the tokenizer, then the model, and a
failure of either is reported as the 400 "Unsupported language pair"
error.  A tokenizer stored before the model load fails stays stored,
exactly as the Python assignment order leaves it. -/
def loadModel (b : Backend) (st : HState) (source_lang target_lang : String) :
    Except PyError (MarianMTModel × MarianTokenizer) × HState :=
  let model_name := getModelName source_lang target_lang
  match lookupA st.models model_name with
  | some model =>
    match lookupA st.tokenizers model_name with
    | some tokenizer => (.ok (model, tokenizer), st)
    | none => (.error (.keyErr model_name), st)
  | none =>
    let st1 : HState := { st with matCalls := st.matCalls + 1 }
    match b.tokRepo model_name with
    | .error _ =>
      (.error (.http 400 ("Unsupported language pair: " ++ source_lang ++ "-" ++ target_lang)), st1)
    | .ok tokenizer =>
      let st2 : HState := { st1 with tokenizers := insertA model_name tokenizer st1.tokenizers }
      match b.modRepo model_name with
      | .error _ =>
        (.error (.http 400 ("Unsupported language pair: " ++ source_lang ++ "-" ++ target_lang)), st2)
      | .ok model =>
        let st3 : HState := { st2 with models := insertA model_name model st2.models }
        (.ok (model, tokenizer), st3)

/-- Embeds `detect_language` (lines 79-92): newlines are replaced by
spaces, the cleaned text goes to the fastText identifier, and the top
label has every occurrence of `"__label__"` removed (Python
`str.replace`); any failure inside the `try` becomes the 500 error. -/
def detect_language (b : Backend) (text : String) :
    Except PyError LanguageDetectionResponse :=
  let cleaned := pyReplace text "\n" " "
  match b.detector cleaned with
  | .ok (label, conf) =>
    .ok { detected_language := pyReplace label "__label__" "",
          confidence := conf }
  | .error e => .error (.http 500 ("Language detection failed: " ++ e))

/-- Python truthiness test `not source_lang` for an `Optional[str]`:
true for `None` and for the empty string. -/
def pyFalsy : Option String → Bool
  | none => true
  | some s => s == ""

/-- Step 1 of `translate` (lines 95-98): if `source_lang` is falsy, run
detection and use the detected code as the effective source language. -/
def effectiveSource (b : Backend) (text : String) (source_lang : Option String) :
    Except PyError String :=
  if pyFalsy source_lang then
    match detect_language b text with
    | .ok d => .ok d.detected_language
    | .error e => .error e
  else
    .ok (source_lang.getD "")

/-- Embeds the `try` block of `translate` (lines 110-112): tokenize the
text, generate, take the first output sequence (`translated[0]`, an
IndexError if empty), decode. -/
def runPipeline (tokenizer : MarianTokenizer) (model : MarianMTModel)
    (text : String) : Except String String :=
  match tokenizer.encode text with
  | .error e => .error e
  | .ok inputs =>
    match model.generate inputs with
    | .error e => .error e
    | .ok translated =>
      match translated.head? with
      | some first => tokenizer.decode first
      | none => .error "index out of range"

/-- Embeds `translate` (lines 94-120). -/
def translate (b : Backend) (st : HState) (text target_lang : String)
    (source_lang : Option String) :
    Except PyError TranslationResponse × HState :=
  match effectiveSource b text source_lang with
  | .error e => (.error e, st)
  | .ok src =>
    if src = target_lang then
      (.ok { translated_text := text, detected_language := src, confidence := 1 }, st)
    else
      match loadModel b st src target_lang with
      | (.error e, st') => (.error e, st')
      | (.ok (model, tokenizer), st') =>
        match runPipeline tokenizer model text with
        | .ok result =>
          (.ok { translated_text := result, detected_language := src,
                 confidence := 0.95 }, st')
        | .error e => (.error (.http 500 e), st')

/-- Embeds `batch_translate` (lines 122-127): the texts are translated
sequentially; the first exception aborts the loop and propagates, so no
partial list of results is ever returned. -/
def batch_translate (b : Backend) (st : HState) (texts : List String)
    (target_lang : String) (source_lang : Option String) :
    Except PyError BatchTranslationResponse × HState :=
  match texts with
  | [] => (.ok { translations := [] }, st)
  | t :: rest =>
    match translate b st t target_lang source_lang with
    | (.error e, st') => (.error e, st')
    | (.ok r, st') =>
      match batch_translate b st' rest target_lang source_lang with
      | (.ok resp, st2) => (.ok { translations := r :: resp.translations }, st2)
      | (.error e, st2) => (.error e, st2)

end TranslationModelHandler

/-! ### Concrete fixtures used by the witness theorems -/

/-- Stub tokenizer whose decode step always yields `out`. -/
def tokStub (out : String) : MarianTokenizer :=
  { encode := fun _ => .ok [0], decode := fun _ => .ok out }

/-- Stub model producing a single output sequence. -/
def modStub : MarianMTModel :=
  { generate := fun _ => .ok [[0]] }

/-- The freshly constructed handler state: empty caches. -/
def st0 : HState := { models := [], tokenizers := [], matCalls := 0 }

/-- A backend on which every external call fails. -/
def bFail : Backend :=
  { tokRepo := fun _ => .error "not found"
    modRepo := fun _ => .error "not found"
    detector := fun _ => .error "offline" }

/-- A backend whose repository serves exactly the `(src, tgt)` model,
translating every input to `out`. -/
def bPair (src tgt out : String) : Backend :=
  { tokRepo := fun k =>
      if k = TranslationModelHandler.getModelName src tgt then .ok (tokStub out)
      else .error "not found"
    modRepo := fun k =>
      if k = TranslationModelHandler.getModelName src tgt then .ok modStub
      else .error "not found"
    detector := fun _ => .error "offline" }

/-- Backend serving the en→es model with output "Hola". -/
def bHola : Backend := bPair "en" "es" "Hola"

namespace TranslationModelHandler

/-! ### C1: same-language short circuit -/

/-- C1: for every text `t` and language code `L` (a language code is a
non-empty string; the empty string is falsy and treated as an absent
argument, see C10), `translate(t, target_language=L, source_language=L)`
returns the input text unchanged with detected language `L` and
confidence 1.0, and leaves the handler state — in particular the model
and tokenizer caches and the materialization count — untouched. -/
theorem translate_same_language (b : Backend) (st : HState) (text lang : String)
    (h : lang ≠ "") :
    translate b st text lang (some lang) =
      (.ok { translated_text := text, detected_language := lang, confidence := 1 }, st) := by
  simp [translate, effectiveSource, pyFalsy, h]

/-- Witness for C1 at a concrete input. -/
theorem translate_same_language_witness :
    translate bFail st0 "hello" "en" (some "en") =
      (.ok { translated_text := "hello", detected_language := "en", confidence := 1 }, st0) :=
  translate_same_language bFail st0 "hello" "en" (by decide)

/-! ### C10: empty source language behaves like an absent one -/

/-- C10: `translate` treats `source_language=""` exactly like an absent
`source_language`: both are falsy, so both trigger language detection and
then proceed identically. -/
theorem translate_empty_source_language (b : Backend) (st : HState)
    (text target_lang : String) :
    translate b st text target_lang (some "") =
      translate b st text target_lang none := rfl

/-! ### C3: unsupported pair fails without touching the cache -/

/-- C3: when no pretrained resource exists for the pair — both
repository entry points fail for its model name, so materialization
fails at the very first `from_pretrained` call — and the pair is not
already cached, `translate` fails with the 400 "Unsupported language
pair" error naming both codes, and both cache dicts are exactly as
before the call (only the materialization-attempt count grew). -/
theorem translate_unsupported_pair (b : Backend) (st : HState)
    (text source_lang target_lang etok emod : String)
    (hs : source_lang ≠ "") (hne : source_lang ≠ target_lang)
    (hmiss : lookupA st.models (getModelName source_lang target_lang) = none)
    (htok : b.tokRepo (getModelName source_lang target_lang) = .error etok)
    (hmod : b.modRepo (getModelName source_lang target_lang) = .error emod) :
    translate b st text target_lang (some source_lang) =
      (.error (.http 400 ("Unsupported language pair: " ++ source_lang ++ "-" ++ target_lang)),
       { st with matCalls := st.matCalls + 1 }) := by
  simp [translate, effectiveSource, pyFalsy, loadModel, hs, hne, hmiss, htok]

/-- Witness for C3 at a concrete input. -/
theorem translate_unsupported_pair_witness :
    translate bFail st0 "hi" "yy" (some "xx") =
      (.error (.http 400 ("Unsupported language pair: " ++ "xx" ++ "-" ++ "yy")),
       { st0 with matCalls := st0.matCalls + 1 }) :=
  translate_unsupported_pair bFail st0 "hi" "xx" "yy" "not found" "not found"
    (by decide) (by decide) rfl rfl rfl

/-! ### C7: model path returns decoded text, source, and the 0.95 placeholder -/

/-- C7: a successful `translate` whose effective source language differs
from the target returns the decoded model output as the translated text,
the effective source language as the detected language, and the fixed
placeholder confidence 0.95. -/
theorem translate_model_path (b : Backend) (st st' : HState)
    (text target_lang src result : String) (source_lang : Option String)
    (model : MarianMTModel) (tokenizer : MarianTokenizer)
    (toks first : List Nat) (outs : List (List Nat))
    (hsrc : effectiveSource b text source_lang = .ok src)
    (hne : src ≠ target_lang)
    (hload : loadModel b st src target_lang = (.ok (model, tokenizer), st'))
    (henc : tokenizer.encode text = .ok toks)
    (hgen : model.generate toks = .ok outs)
    (hhead : outs.head? = some first)
    (hdec : tokenizer.decode first = .ok result) :
    translate b st text target_lang source_lang =
      (.ok { translated_text := result, detected_language := src, confidence := 0.95 }, st') := by
  simp [translate, hsrc, hne, hload, runPipeline, henc, hgen, hhead, hdec]

/-- Witness for C7: the concrete Hello→Hola scenario. -/
theorem translate_model_path_witness :
    (translate bHola st0 "Hello" "es" (some "en")).1 =
      .ok { translated_text := "Hola", detected_language := "en", confidence := 0.95 } := by
  rw [translate_model_path bHola st0 _ "Hello" "es" "en" "Hola" (some "en")
        modStub (tokStub "Hola") [0] [0] [[0]] rfl (by decide) rfl rfl rfl rfl rfl]

end TranslationModelHandler

/-! ### C4: the cache key does not separate pairs in general -/

/-- Helper: splitting a list at a separator that occurs in neither left
part is unambiguous. -/
theorem append_sep_inj {α : Type} (sep : α) (a : List α) :
    ∀ (c : List α) {b d : List α}, sep ∉ a → sep ∉ c →
      a ++ sep :: b = c ++ sep :: d → a = c ∧ b = d := by
  induction a with
  | nil =>
    intro c b d _ hc h
    cases c with
    | nil =>
      refine ⟨rfl, ?_⟩
      injection h
    | cons x xs =>
      rw [List.nil_append, List.cons_append] at h
      injection h with h1 h2
      subst h1
      exact absurd (List.mem_cons_self _ _) hc
  | cons y ys ih =>
    intro c b d ha hc h
    cases c with
    | nil =>
      rw [List.cons_append, List.nil_append] at h
      injection h with h1 h2
      subst h1
      exact absurd (List.mem_cons_self _ _) ha
    | cons x xs =>
      rw [List.cons_append, List.cons_append] at h
      injection h with h1 h2
      subst h1
      have hys : sep ∉ ys := fun hm => ha (List.mem_cons_of_mem _ hm)
      have hxs : sep ∉ xs := fun hm => hc (List.mem_cons_of_mem _ hm)
      obtain ⟨e1, e2⟩ := ih xs hys hxs h2
      exact ⟨by rw [e1], e2⟩

/-- Helper: the Helsinki-NLP model-name string determines hyphen-free
source codes and the target code. -/
theorem helsinki_name_inj (s1 t1 s2 t2 : String)
    (hd1 : ('-') ∉ s1.data) (hd2 : ('-') ∉ s2.data)
    (h : "Helsinki-NLP/opus-mt-" ++ s1 ++ "-" ++ t1 =
         "Helsinki-NLP/opus-mt-" ++ s2 ++ "-" ++ t2) :
    s1 = s2 ∧ t1 = t2 := by
  have hdash : ("-" : String).data = ['-'] := rfl
  have h2 := congrArg String.data h
  simp only [String.data_append, hdash, List.append_assoc, List.cons_append,
    List.nil_append] at h2
  simp only [show ("Helsinki-NLP/opus-mt-" : String).data =
      'H' :: 'e' :: 'l' :: 's' :: 'i' :: 'n' :: 'k' :: 'i' :: '-' :: 'N' :: 'L' :: 'P' ::
      '/' :: 'o' :: 'p' :: 'u' :: 's' :: '-' :: 'm' :: 't' :: '-' :: [] from rfl,
    List.cons_append, List.nil_append, List.cons.injEq, true_and] at h2
  obtain ⟨e1, e2⟩ := append_sep_inj ('-') s1.data s2.data hd1 hd2 h2
  exact ⟨String.ext e1, String.ext e2⟩

/-- C4, counterexample: the cache lookup key is the concatenated model
name, which identifies distinct language pairs: the pairs ("a-b", "c")
and ("a", "b-c") are different but produce the same key. -/
theorem getModelName_collision :
    TranslationModelHandler.getModelName "a-b" "c" =
      TranslationModelHandler.getModelName "a" "b-c" ∧
    ("a-b", "c") ≠ (("a", "b-c") : String × String) := by
  refine ⟨rfl, ?_⟩
  decide

/-- C4, amended: for language pairs with non-empty components whose
source codes contain no hyphen, the cache lookup keys coincide exactly
when the pairs coincide (case-sensitive, no normalization); pairs with
hyphenated source codes can collide, as the counterexample shows. -/
theorem getModelName_separates (s1 t1 s2 t2 : String)
    (hs1 : s1 ≠ "") (ht1 : t1 ≠ "") (hs2 : s2 ≠ "") (ht2 : t2 ≠ "")
    (hd1 : ('-') ∉ s1.data) (hd2 : ('-') ∉ s2.data) :
    (TranslationModelHandler.getModelName s1 t1 =
       TranslationModelHandler.getModelName s2 t2) ↔ (s1 = s2 ∧ t1 = t2) := by
  constructor
  · intro h
    simp only [TranslationModelHandler.getModelName,
      if_pos (And.intro hs1 ht1), if_pos (And.intro hs2 ht2),
      Option.some.injEq] at h
    exact helsinki_name_inj s1 t1 s2 t2 hd1 hd2 h
  · rintro ⟨rfl, rfl⟩
    rfl

/-- Witness for the amended C4 at concrete pairs. -/
theorem getModelName_separates_witness :
    (TranslationModelHandler.getModelName "en" "fr" =
       TranslationModelHandler.getModelName "en" "es") ↔ ("en" = "en" ∧ "fr" = "es") :=
  getModelName_separates "en" "fr" "en" "es" (by decide) (by decide) (by decide)
    (by decide) (by decide) (by decide)

/-! ### Facts about `pyReplace` and the association-list caches -/

/-- If the pattern does not occur in the subject, replacement is the
identity, for every fuel value. -/
theorem pyReplaceGo_no_occur (old new : List Char) :
    ∀ (s : List Char), hasSub old s = false →
      ∀ fuel, pyReplaceGo old new fuel s = s := by
  intro s
  induction s with
  | nil =>
    intro _ fuel
    cases fuel <;> rfl
  | cons c rest ih =>
    intro h fuel
    have hsplit : old.isPrefixOf (c :: rest) = false ∧ hasSub old rest = false := by
      simpa [hasSub] using h
    cases fuel with
    | zero => rfl
    | succ n =>
      have hcond : ¬ (old ≠ [] ∧ old.isPrefixOf (c :: rest) = true) := by
        rintro ⟨-, hpre⟩
        rw [hsplit.1] at hpre
        exact absurd hpre (by decide)
      simp only [pyReplaceGo, if_neg hcond]
      rw [ih hsplit.2 n]

/-- A list is a Boolean prefix of itself followed by anything. -/
theorem isPrefixOf_append_self (old s : List Char) :
    old.isPrefixOf (old ++ s) = true := by
  induction old with
  | nil => cases s <;> rfl
  | cons o os ih => simpa [List.isPrefixOf] using ih

/-- Removing a non-empty leading pattern that does not occur in the tail:
the Python `replace(old, "")` of `old ++ s` is `s`. -/
theorem pyReplaceList_strip (old s : List Char) (hold : old ≠ [])
    (h : hasSub old s = false) :
    pyReplaceList old [] (old ++ s) = s := by
  obtain ⟨o, os, rfl⟩ : ∃ o os, old = o :: os := by
    cases old with
    | nil => exact absurd rfl hold
    | cons o os => exact ⟨o, os, rfl⟩
  show pyReplaceGo (o :: os) [] ((o :: os) ++ s).length ((o :: os) ++ s) = s
  have hlen : ((o :: os) ++ s).length = Nat.succ (os.length + s.length) := by
    simp [List.length_append]
  have hpre : (o :: os).isPrefixOf (o :: (os ++ s)) = true := by
    rw [← List.cons_append]
    exact isPrefixOf_append_self (o :: os) s
  have hdrop : (o :: (os ++ s)).drop (o :: os).length = s := by
    rw [← List.cons_append]
    exact List.drop_left (o :: os) s
  rw [hlen, List.cons_append]
  simp only [pyReplaceGo, if_pos (And.intro (List.cons_ne_nil o os) hpre)]
  rw [List.nil_append, hdrop]
  exact pyReplaceGo_no_occur (o :: os) [] s h _

/-- Looking up the just-inserted key yields the inserted value. -/
theorem lookupA_insertA_self {κ α : Type} [DecidableEq κ] (k : κ) (v : α)
    (l : List (κ × α)) : lookupA (insertA k v l) k = some v := by
  simp [insertA, lookupA]

/-- Filtering out a key the lookup does not target changes nothing. -/
theorem lookupA_filter_ne {κ α : Type} [DecidableEq κ] (k k' : κ)
    (l : List (κ × α)) (h : k' ≠ k) :
    lookupA (l.filter (fun p => decide (p.1 ≠ k))) k' = lookupA l k' := by
  induction l with
  | nil => rfl
  | cons p rest ih =>
    obtain ⟨a, v⟩ := p
    simp only [decide_not] at ih ⊢
    by_cases hak : a = k
    · have hak' : ¬ a = k' := fun hx => h (hak ▸ hx ▸ rfl)
      simp [List.filter_cons, lookupA, hak, hak', ih, Ne.symm h]
    · by_cases hak' : a = k'
      · simp [List.filter_cons, lookupA, hak, hak', h]
      · simp [List.filter_cons, lookupA, hak, hak', ih]

/-- Looking up a different key after an insert sees the old cache. -/
theorem lookupA_insertA_ne {κ α : Type} [DecidableEq κ] (k k' : κ) (v : α)
    (l : List (κ × α)) (h : k' ≠ k) :
    lookupA (insertA k v l) k' = lookupA l k' := by
  have hk : ¬ k = k' := fun hx => h hx.symm
  simp only [insertA, lookupA, if_neg hk]
  exact lookupA_filter_ne k k' l h

namespace TranslationModelHandler

/-! ### C8: detect_language -/

/-- C8: `detect_language` replaces every newline in the input by a space,
hands the cleaned text to the external identifier, and on success returns
the top label with its `"__label__"` prefix stripped (the code removes
every occurrence; for fastText-shaped labels — the prefix followed by a
code not containing `"__label__"` — that is exactly prefix stripping)
together with the prediction's confidence; if the identifier invocation
fails it raises the 500 "Language detection failed" error instead of
returning a guess. -/
theorem detect_language_spec (b : Backend) (text : String) :
    (∀ (code : String) (conf : Rat),
       hasSub ("__label__".data) code.data = false →
       b.detector (pyReplace text "\n" " ") = .ok ("__label__" ++ code, conf) →
       detect_language b text =
         .ok { detected_language := code, confidence := conf }) ∧
    (∀ e : String,
       b.detector (pyReplace text "\n" " ") = .error e →
       detect_language b text =
         .error (.http 500 ("Language detection failed: " ++ e))) := by
  constructor
  · intro code conf hsub hdet
    have hstrip : pyReplace ("__label__" ++ code) "__label__" "" = code := by
      show String.mk
        (pyReplaceList ("__label__".data) ("".data) (("__label__" ++ code).data)) = code
      rw [String.data_append]
      have : ("" : String).data = [] := rfl
      rw [this, pyReplaceList_strip _ _ (by decide) hsub]
    simp [detect_language, hdet, hstrip]
  · intro e hdet
    simp [detect_language, hdet]

end TranslationModelHandler

/-- Backend whose detector recognizes the cleaned text "a b". -/
def bDet : Backend :=
  { tokRepo := fun _ => .error "not found"
    modRepo := fun _ => .error "not found"
    detector := fun s => if s = "a b" then .ok ("__label__en", 9/10) else .error "offline" }

/-- Witness for C8: a concrete text with an embedded newline. -/
theorem detect_language_spec_witness :
    TranslationModelHandler.detect_language bDet "a\nb" =
      .ok { detected_language := "en", confidence := 9/10 } :=
  (TranslationModelHandler.detect_language_spec bDet "a\nb").1 "en" (9/10) rfl rfl

namespace TranslationModelHandler

/-! ### C2: one materialization per pair -/

/-- A cached pair is served from the cache. -/
theorem loadModel_cached (b : Backend) (st : HState) (src tgt : String)
    (m : MarianMTModel) (t : MarianTokenizer)
    (hm : lookupA st.models (getModelName src tgt) = some m)
    (ht : lookupA st.tokenizers (getModelName src tgt) = some t) :
    loadModel b st src tgt = (.ok (m, t), st) := by
  simp [loadModel, hm, ht]

/-- A translate call for a fully cached pair leaves the state untouched,
whatever the pipeline does. -/
theorem translate_cached_state (b : Backend) (st : HState) (text src tgt : String)
    (m : MarianMTModel) (t : MarianTokenizer)
    (hs : src ≠ "") (hne : src ≠ tgt)
    (hm : lookupA st.models (getModelName src tgt) = some m)
    (ht : lookupA st.tokenizers (getModelName src tgt) = some t) :
    (translate b st text tgt (some src)).2 = st := by
  have heff : effectiveSource b text (some src) = .ok src := by
    simp [effectiveSource, pyFalsy, hs]
  have hload := loadModel_cached b st src tgt m t hm ht
  cases hpipe : runPipeline t m text <;>
    simp [translate, heff, hne, hload, hpipe]

/-- A successful translate call for an uncached pair performs the single
materialization: both repository calls succeed and the final state is the
input state with the pair added to both caches and the materialization
count advanced by one. -/
theorem translate_uncached_success (b : Backend) (st : HState)
    (text src tgt : String) (r : TranslationResponse)
    (hs : src ≠ "") (hne : src ≠ tgt)
    (hmiss : lookupA st.models (getModelName src tgt) = none)
    (hok : (translate b st text tgt (some src)).1 = .ok r) :
    ∃ (m : MarianMTModel) (t : MarianTokenizer),
      b.tokRepo (getModelName src tgt) = .ok t ∧
      b.modRepo (getModelName src tgt) = .ok m ∧
      (translate b st text tgt (some src)).2 =
        { models := insertA (getModelName src tgt) m st.models,
          tokenizers := insertA (getModelName src tgt) t st.tokenizers,
          matCalls := st.matCalls + 1 } := by
  have heff : effectiveSource b text (some src) = .ok src := by
    simp [effectiveSource, pyFalsy, hs]
  cases htok : b.tokRepo (getModelName src tgt) with
  | error e =>
    exfalso
    have hload : loadModel b st src tgt =
        (.error (.http 400 ("Unsupported language pair: " ++ src ++ "-" ++ tgt)),
         { st with matCalls := st.matCalls + 1 }) := by
      simp [loadModel, hmiss, htok]
    have htr : translate b st text tgt (some src) =
        (.error (.http 400 ("Unsupported language pair: " ++ src ++ "-" ++ tgt)),
         { st with matCalls := st.matCalls + 1 }) := by
      simp [translate, heff, hne, hload]
    rw [htr] at hok
    exact absurd hok (by simp)
  | ok t =>
    cases hmod : b.modRepo (getModelName src tgt) with
    | error e =>
      exfalso
      have hload : loadModel b st src tgt =
          (.error (.http 400 ("Unsupported language pair: " ++ src ++ "-" ++ tgt)),
           { st with tokenizers := insertA (getModelName src tgt) t st.tokenizers,
                     matCalls := st.matCalls + 1 }) := by
        simp [loadModel, hmiss, htok, hmod]
      have htr : translate b st text tgt (some src) =
          (.error (.http 400 ("Unsupported language pair: " ++ src ++ "-" ++ tgt)),
           { st with tokenizers := insertA (getModelName src tgt) t st.tokenizers,
                     matCalls := st.matCalls + 1 }) := by
        simp [translate, heff, hne, hload]
      rw [htr] at hok
      exact absurd hok (by simp)
    | ok m =>
      have hload : loadModel b st src tgt =
          (.ok (m, t),
           { models := insertA (getModelName src tgt) m st.models,
             tokenizers := insertA (getModelName src tgt) t st.tokenizers,
             matCalls := st.matCalls + 1 }) := by
        simp [loadModel, hmiss, htok, hmod]
      cases hpipe : runPipeline t m text with
      | error e =>
        exfalso
        have htr : translate b st text tgt (some src) =
            (.error (.http 500 e),
             { models := insertA (getModelName src tgt) m st.models,
               tokenizers := insertA (getModelName src tgt) t st.tokenizers,
               matCalls := st.matCalls + 1 }) := by
          simp [translate, heff, hne, hload, hpipe]
        rw [htr] at hok
        exact absurd hok (by simp)
      | ok res =>
        have htr : translate b st text tgt (some src) =
            (.ok { translated_text := res, detected_language := src, confidence := 0.95 },
             { models := insertA (getModelName src tgt) m st.models,
               tokenizers := insertA (getModelName src tgt) t st.tokenizers,
               matCalls := st.matCalls + 1 }) := by
          simp [translate, heff, hne, hload, hpipe]
        exact ⟨m, t, rfl, rfl, by rw [htr]⟩

/-- With the pair fully cached, a whole batch of translate calls for it
leaves the state untouched. -/
theorem batch_cached_state (b : Backend) (src tgt : String)
    (m : MarianMTModel) (t : MarianTokenizer)
    (hs : src ≠ "") (hne : src ≠ tgt) :
    ∀ (texts : List String) (st : HState),
      lookupA st.models (getModelName src tgt) = some m →
      lookupA st.tokenizers (getModelName src tgt) = some t →
      (batch_translate b st texts tgt (some src)).2 = st := by
  intro texts
  induction texts with
  | nil => intro st _ _; rfl
  | cons x rest ih =>
    intro st hm ht
    have hstate : (translate b st x tgt (some src)).2 = st :=
      translate_cached_state b st x src tgt m t hs hne hm ht
    cases htr : translate b st x tgt (some src) with
    | mk res st' =>
      have hst' : st' = st := by
        have := congrArg Prod.snd htr
        simp at this
        rw [← this, hstate]
      cases res with
      | error e => simp [batch_translate, htr, hst']
      | ok r =>
        cases hb : batch_translate b st' rest tgt (some src) with
        | mk res2 st2 =>
          have hst2 : st2 = st := by
            have := congrArg Prod.snd hb
            simp at this
            rw [← this, hst', ih st hm ht]
          cases res2 <;> simp [batch_translate, htr, hb, hst2]

/-- C2: model resolution is idempotent per language pair.  For a fixed
pair with distinct non-empty codes: (i) when the pair is cached,
`_load_model` returns the cached model/tokenizer entry and `translate`
leaves the handler state — in particular the materialization count —
untouched; (ii) a successful `translate` on an uncached pair performs
exactly one materialization and caches the pair; (iii) hence over any
non-empty sequence of successful `translate` calls for that pair starting
uncached, exactly one materialization call reaches the model
repository. -/
theorem translate_one_materialization_per_pair (b : Backend) (st : HState)
    (src tgt : String) (hs : src ≠ "") (hne : src ≠ tgt) :
    (∀ (text : String) (m : MarianMTModel) (t : MarianTokenizer),
        lookupA st.models (getModelName src tgt) = some m →
        lookupA st.tokenizers (getModelName src tgt) = some t →
        loadModel b st src tgt = (.ok (m, t), st) ∧
        (translate b st text tgt (some src)).2 = st) ∧
    (∀ (text : String) (r : TranslationResponse),
        lookupA st.models (getModelName src tgt) = none →
        (translate b st text tgt (some src)).1 = .ok r →
        (translate b st text tgt (some src)).2.matCalls = st.matCalls + 1 ∧
        (lookupA (translate b st text tgt (some src)).2.models
            (getModelName src tgt)).isSome = true) ∧
    (∀ (texts : List String) (resp : BatchTranslationResponse),
        lookupA st.models (getModelName src tgt) = none →
        texts ≠ [] →
        (batch_translate b st texts tgt (some src)).1 = .ok resp →
        (batch_translate b st texts tgt (some src)).2.matCalls = st.matCalls + 1) := by
  refine ⟨?_, ?_, ?_⟩
  · intro text m t hm ht
    exact ⟨loadModel_cached b st src tgt m t hm ht,
           translate_cached_state b st text src tgt m t hs hne hm ht⟩
  · intro text r hmiss hok
    obtain ⟨m, t, -, -, hfin⟩ :=
      translate_uncached_success b st text src tgt r hs hne hmiss hok
    rw [hfin]
    exact ⟨rfl, by rw [lookupA_insertA_self]; rfl⟩
  · intro texts resp hmiss hnonempty hok
    cases texts with
    | nil => exact absurd rfl hnonempty
    | cons x rest =>
      cases htr : translate b st x tgt (some src) with
      | mk res st' =>
        cases res with
        | error e =>
          exfalso
          have : (batch_translate b st (x :: rest) tgt (some src)).1 = .error e := by
            simp [batch_translate, htr]
          rw [this] at hok
          exact absurd hok (by simp)
        | ok r =>
          have hokx : (translate b st x tgt (some src)).1 = .ok r := by
            rw [htr]
          obtain ⟨m, t, -, -, hfin⟩ :=
            translate_uncached_success b st x src tgt r hs hne hmiss hokx
          have hst' : st' =
              { models := insertA (getModelName src tgt) m st.models,
                tokenizers := insertA (getModelName src tgt) t st.tokenizers,
                matCalls := st.matCalls + 1 } := by
            have := congrArg Prod.snd htr
            simp at this
            rw [← this, hfin]
          have hrest : (batch_translate b st' rest tgt (some src)).2 = st' := by
            apply batch_cached_state b src tgt m t hs hne rest st'
            · rw [hst']; exact lookupA_insertA_self _ _ _
            · rw [hst']; exact lookupA_insertA_self _ _ _
          cases hb : batch_translate b st' rest tgt (some src) with
          | mk res2 st2 =>
            have hst2 : st2 = st' := by
              have := congrArg Prod.snd hb
              simp at this
              rw [← this, hrest]
            cases res2 with
            | error e2 =>
              exfalso
              have : (batch_translate b st (x :: rest) tgt (some src)).1 = .error e2 := by
                simp [batch_translate, htr, hb]
              rw [this] at hok
              exact absurd hok (by simp)
            | ok resp2 =>
              have : (batch_translate b st (x :: rest) tgt (some src)).2 = st2 := by
                simp [batch_translate, htr, hb]
              rw [this, hst2, hst']

end TranslationModelHandler

/-- Backend serving the en→fr model with output "X". -/
def bEnFr : Backend := bPair "en" "fr" "X"

/-- Witness for C2: a two-element batch for the uncached pair (en, fr)
materializes exactly once. -/
theorem translate_one_materialization_per_pair_witness :
    (TranslationModelHandler.batch_translate bEnFr st0 ["a", "b"] "fr" (some "en")).2.matCalls
      = st0.matCalls + 1 :=
  (TranslationModelHandler.translate_one_materialization_per_pair bEnFr st0 "en" "fr"
      (by decide) (by decide)).2.2 ["a", "b"]
    ⟨[⟨"X", "en", 0.95⟩, ⟨"X", "en", 0.95⟩]⟩ rfl (by decide) rfl

/-! ### C5: batch translation mirrors single translation -/

/-- Cache consistency with the repository: every cached entry is exactly
what the repository serves for its key, and a model entry never exists
without its tokenizer entry.  The fresh handler state satisfies it and
every operation preserves it, so it characterizes the reachable handler
states. -/
def consistent (b : Backend) (st : HState) : Prop :=
  (∀ k m, lookupA st.models k = some m → b.modRepo k = .ok m) ∧
  (∀ k t, lookupA st.tokenizers k = some t → b.tokRepo k = .ok t) ∧
  (∀ k, (lookupA st.models k).isSome = true →
     (lookupA st.tokenizers k).isSome = true)

/-- The fresh handler state is consistent with every backend. -/
theorem consistent_st0 (b : Backend) : consistent b st0 := by
  refine ⟨?_, ?_, ?_⟩ <;> intro k
  · intro m hk
    simp [st0, lookupA] at hk
  · intro t hk
    simp [st0, lookupA] at hk
  · intro hk
    simp [st0, lookupA] at hk

/-- Consistency does not look at the materialization counter. -/
theorem consistent_matCalls (b : Backend) (st : HState) (n : Nat)
    (h : consistent b st) : consistent b { st with matCalls := n } := h

namespace TranslationModelHandler

/-- Caching a tokenizer the repository actually serves keeps consistency. -/
theorem consistent_insert_tok (b : Backend) (st : HState) (key : Option String)
    (t : MarianTokenizer) (htok : b.tokRepo key = .ok t) (h : consistent b st) :
    consistent b { st with tokenizers := insertA key t st.tokenizers } := by
  obtain ⟨hm, ht, hmt⟩ := h
  refine ⟨hm, ?_, ?_⟩
  · intro k t' hk
    by_cases hkk : k = key
    · subst hkk
      rw [show ({ st with tokenizers := insertA k t st.tokenizers } : HState).tokenizers
            = insertA k t st.tokenizers from rfl, lookupA_insertA_self] at hk
      injection hk with he
      rw [← he]
      exact htok
    · rw [show ({ st with tokenizers := insertA key t st.tokenizers } : HState).tokenizers
            = insertA key t st.tokenizers from rfl, lookupA_insertA_ne key k t _ hkk] at hk
      exact ht k t' hk
  · intro k hk
    by_cases hkk : k = key
    · subst hkk
      rw [show ({ st with tokenizers := insertA k t st.tokenizers } : HState).tokenizers
            = insertA k t st.tokenizers from rfl, lookupA_insertA_self]
      rfl
    · rw [show ({ st with tokenizers := insertA key t st.tokenizers } : HState).tokenizers
            = insertA key t st.tokenizers from rfl, lookupA_insertA_ne key k t _ hkk]
      exact hmt k hk

/-- Caching a pair the repository actually serves keeps consistency. -/
theorem consistent_insert_both (b : Backend) (st : HState) (key : Option String)
    (t : MarianTokenizer) (m : MarianMTModel)
    (htok : b.tokRepo key = .ok t) (hmod : b.modRepo key = .ok m)
    (h : consistent b st) :
    consistent b { models := insertA key m st.models,
                   tokenizers := insertA key t st.tokenizers,
                   matCalls := st.matCalls + 1 } := by
  obtain ⟨hm, ht, hmt⟩ := h
  refine ⟨?_, ?_, ?_⟩
  · intro k m' hk
    by_cases hkk : k = key
    · subst hkk
      rw [show lookupA (insertA k m st.models) k = some m from lookupA_insertA_self k m _] at hk
      injection hk with he
      rw [← he]
      exact hmod
    · rw [show lookupA (insertA key m st.models) k = lookupA st.models k from
            lookupA_insertA_ne key k m _ hkk] at hk
      exact hm k m' hk
  · intro k t' hk
    by_cases hkk : k = key
    · subst hkk
      rw [show lookupA (insertA k t st.tokenizers) k = some t from lookupA_insertA_self k t _] at hk
      injection hk with he
      rw [← he]
      exact htok
    · rw [show lookupA (insertA key t st.tokenizers) k = lookupA st.tokenizers k from
            lookupA_insertA_ne key k t _ hkk] at hk
      exact ht k t' hk
  · intro k hk
    by_cases hkk : k = key
    · subst hkk
      rw [show lookupA (insertA k t st.tokenizers) k = some t from lookupA_insertA_self k t _]
      rfl
    · rw [show lookupA (insertA key m st.models) k = lookupA st.models k from
            lookupA_insertA_ne key k m _ hkk] at hk
      rw [show lookupA (insertA key t st.tokenizers) k = lookupA st.tokenizers k from
            lookupA_insertA_ne key k t _ hkk]
      exact hmt k hk

/-- `_load_model` preserves cache consistency on every path. -/
theorem loadModel_consistent (b : Backend) (st : HState) (src tgt : String)
    (h : consistent b st) : consistent b (loadModel b st src tgt).2 := by
  cases hk : lookupA st.models (getModelName src tgt) with
  | some m =>
    cases hkt : lookupA st.tokenizers (getModelName src tgt) with
    | some t => simpa [loadModel, hk, hkt] using h
    | none => simpa [loadModel, hk, hkt] using h
  | none =>
    cases htok : b.tokRepo (getModelName src tgt) with
    | error e =>
      have hst : (loadModel b st src tgt).2 = { st with matCalls := st.matCalls + 1 } := by
        simp [loadModel, hk, htok]
      rw [hst]
      exact consistent_matCalls b st _ h
    | ok t =>
      cases hmod : b.modRepo (getModelName src tgt) with
      | error e =>
        have hst : (loadModel b st src tgt).2 =
            { st with tokenizers := insertA (getModelName src tgt) t st.tokenizers,
                      matCalls := st.matCalls + 1 } := by
          simp [loadModel, hk, htok, hmod]
        rw [hst]
        exact consistent_matCalls b _ _ (consistent_insert_tok b st _ t htok h)
      | ok m =>
        have hst : (loadModel b st src tgt).2 =
            { models := insertA (getModelName src tgt) m st.models,
              tokenizers := insertA (getModelName src tgt) t st.tokenizers,
              matCalls := st.matCalls + 1 } := by
          simp [loadModel, hk, htok, hmod]
        rw [hst]
        exact consistent_insert_both b st _ t m htok hmod h

/-- `translate` preserves cache consistency on every path. -/
theorem translate_consistent (b : Backend) (st : HState) (text tgt : String)
    (src : Option String) (h : consistent b st) :
    consistent b (translate b st text tgt src).2 := by
  cases heff : effectiveSource b text src with
  | error e => simpa [translate, heff] using h
  | ok s =>
    by_cases hne : s = tgt
    · simpa [translate, heff, hne] using h
    · have hlc := loadModel_consistent b st s tgt h
      cases hl : loadModel b st s tgt with
      | mk r st' =>
        rw [hl] at hlc
        cases r with
        | error e => simpa [translate, heff, hne, hl] using hlc
        | ok mt =>
          obtain ⟨m, t⟩ := mt
          cases hpipe : runPipeline t m text <;>
            simpa [translate, heff, hne, hl, hpipe] using hlc

/-- The value component of `_load_model` is the same in every consistent
state: it is determined by the repository alone. -/
theorem loadModel_fst_of_consistent (b : Backend) (st : HState) (src tgt : String)
    (h : consistent b st) :
    (loadModel b st src tgt).1 =
      (match b.tokRepo (getModelName src tgt) with
       | .error _ =>
         .error (.http 400 ("Unsupported language pair: " ++ src ++ "-" ++ tgt))
       | .ok t =>
         match b.modRepo (getModelName src tgt) with
         | .error _ =>
           .error (.http 400 ("Unsupported language pair: " ++ src ++ "-" ++ tgt))
         | .ok m => .ok (m, t)) := by
  obtain ⟨hm, ht, hmt⟩ := h
  cases hk : lookupA st.models (getModelName src tgt) with
  | none =>
    cases htok : b.tokRepo (getModelName src tgt) with
    | error e => simp [loadModel, hk, htok]
    | ok t =>
      cases hmod : b.modRepo (getModelName src tgt) with
      | error e => simp [loadModel, hk, htok, hmod]
      | ok m => simp [loadModel, hk, htok, hmod]
  | some m =>
    have hmr := hm _ _ hk
    have hsome : (lookupA st.tokenizers (getModelName src tgt)).isSome = true :=
      hmt _ (by rw [hk]; rfl)
    obtain ⟨t, htt⟩ := Option.isSome_iff_exists.mp hsome
    have htr := ht _ _ htt
    simp [loadModel, hk, htt, hmr, htr]

/-- The value component of `translate` is the same in every consistent
state. -/
theorem translate_fst_congr (b : Backend) (sa sb : HState) (text tgt : String)
    (src : Option String) (ha : consistent b sa) (hb : consistent b sb) :
    (translate b sa text tgt src).1 = (translate b sb text tgt src).1 := by
  cases heff : effectiveSource b text src with
  | error e => simp [translate, heff]
  | ok s =>
    by_cases hne : s = tgt
    · simp [translate, heff, hne]
    · have hload : (loadModel b sa s tgt).1 = (loadModel b sb s tgt).1 := by
        rw [loadModel_fst_of_consistent b sa s tgt ha,
            loadModel_fst_of_consistent b sb s tgt hb]
      cases hla : loadModel b sa s tgt with
      | mk ra sa' =>
        cases hlb : loadModel b sb s tgt with
        | mk rb sb' =>
          have hr : ra = rb := by
            have h1 : (loadModel b sa s tgt).1 = ra := by rw [hla]
            have h2 : (loadModel b sb s tgt).1 = rb := by rw [hlb]
            rw [← h1, ← h2]
            exact hload
          subst hr
          cases ra with
          | error e => simp [translate, heff, hne, hla, hlb]
          | ok mt =>
            obtain ⟨m, t⟩ := mt
            cases hpipe : runPipeline t m text <;>
              simp [translate, heff, hne, hla, hlb, hpipe]

/-- Batch success case: the returned outcomes are, in order, the values
of the single-item translate calls evaluated at the initial state. -/
theorem batch_ok_map (b : Backend) (tgt : String) (src : Option String) :
    ∀ (texts : List String) (st : HState), consistent b st →
      ∀ resp st2, batch_translate b st texts tgt src = (.ok resp, st2) →
        resp.translations.map Except.ok =
          texts.map (fun x => (translate b st x tgt src).1) := by
  intro texts
  induction texts with
  | nil =>
    intro st _ resp st2 hb
    simp only [batch_translate] at hb
    injection hb with hfst hsnd
    injection hfst with hresp
    rw [← hresp]
    rfl
  | cons x rest ih =>
    intro st hc resp st2 hb
    cases htr : translate b st x tgt src with
    | mk rx st' =>
      cases rx with
      | error e =>
        exfalso
        simp only [batch_translate, htr] at hb
        exact absurd (congrArg Prod.fst hb) (by simp)
      | ok r =>
        have hc' : consistent b st' := by
          have hx := translate_consistent b st x tgt src hc
          rw [htr] at hx
          exact hx
        cases hbr : batch_translate b st' rest tgt src with
        | mk rr st2' =>
          cases rr with
          | error e =>
            exfalso
            simp only [batch_translate, htr, hbr] at hb
            exact absurd (congrArg Prod.fst hb) (by simp)
          | ok resp' =>
            simp only [batch_translate, htr, hbr] at hb
            injection hb with hfst hsnd
            injection hfst with hresp
            have hrest := ih st' hc' resp' st2' hbr
            have hfuns : (fun y => (translate b st' y tgt src).1) =
                (fun y => (translate b st y tgt src).1) :=
              funext fun y => translate_fst_congr b st' st y tgt src hc' hc
            have hhead : Except.ok r = (translate b st x tgt src).1 := by rw [htr]
            rw [← hresp]
            show (r :: resp'.translations).map Except.ok =
              (x :: rest).map (fun y => (translate b st y tgt src).1)
            rw [List.map_cons, List.map_cons, ← hhead, hrest, hfuns]

/-- Batch failure case: the batch error is the error of the first item
whose single-item translate call fails; all items before it succeed. -/
theorem batch_error_first (b : Backend) (tgt : String) (src : Option String) :
    ∀ (texts : List String) (st : HState), consistent b st →
      ∀ e st2, batch_translate b st texts tgt src = (.error e, st2) →
        ∃ pre x post, texts = pre ++ x :: post ∧
          (translate b st x tgt src).1 = .error e ∧
          ∀ y ∈ pre, ∃ r, (translate b st y tgt src).1 = .ok r := by
  intro texts
  induction texts with
  | nil =>
    intro st _ e st2 hb
    exfalso
    simp only [batch_translate] at hb
    exact absurd (congrArg Prod.fst hb) (by simp)
  | cons x rest ih =>
    intro st hc e st2 hb
    cases htr : translate b st x tgt src with
    | mk rx st' =>
      cases rx with
      | error e0 =>
        simp only [batch_translate, htr] at hb
        injection hb with hfst hsnd
        injection hfst with he
        refine ⟨[], x, rest, rfl, ?_, by intro y hy; exact absurd hy (by simp)⟩
        rw [htr, he]
      | ok r =>
        have hc' : consistent b st' := by
          have hx := translate_consistent b st x tgt src hc
          rw [htr] at hx
          exact hx
        cases hbr : batch_translate b st' rest tgt src with
        | mk rr st2' =>
          cases rr with
          | ok resp' =>
            exfalso
            simp only [batch_translate, htr, hbr] at hb
            exact absurd (congrArg Prod.fst hb) (by simp)
          | error e2 =>
            simp only [batch_translate, htr, hbr] at hb
            injection hb with hfst hsnd
            injection hfst with he2
            obtain ⟨pre, z, post, hsplit, herr, hpre⟩ := ih st' hc' e2 st2' hbr
            refine ⟨x :: pre, z, post, by rw [List.cons_append, hsplit], ?_, ?_⟩
            · rw [translate_fst_congr b st st' z tgt src hc hc', herr, he2]
            · intro y hy
              rcases List.mem_cons.mp hy with rfl | hy'
              · exact ⟨r, by rw [htr]⟩
              · obtain ⟨ry, hry⟩ := hpre y hy'
                exact ⟨ry, by rw [translate_fst_congr b st st' y tgt src hc hc', hry]⟩

/-- C5: `batch_translate` returns one outcome per input text, in input
order, the i-th outcome being exactly the single-item `translate` value
for the i-th text with the same target and source arguments (stated for
consistent — i.e. reachable — handler states); and a failing item aborts
the whole batch with the first failure's error and no partial result. -/
theorem batch_translate_matches_single (b : Backend) (st : HState)
    (texts : List String) (target_lang : String) (source_lang : Option String)
    (hc : consistent b st) :
    (∀ resp st2,
       batch_translate b st texts target_lang source_lang = (.ok resp, st2) →
       resp.translations.map Except.ok =
         texts.map (fun x => (translate b st x target_lang source_lang).1)) ∧
    (∀ e st2,
       batch_translate b st texts target_lang source_lang = (.error e, st2) →
       ∃ pre x post, texts = pre ++ x :: post ∧
         (translate b st x target_lang source_lang).1 = .error e ∧
         ∀ y ∈ pre, ∃ r, (translate b st y target_lang source_lang).1 = .ok r) :=
  ⟨fun resp st2 hb => batch_ok_map b target_lang source_lang texts st hc resp st2 hb,
   fun e st2 hb => batch_error_first b target_lang source_lang texts st hc e st2 hb⟩

end TranslationModelHandler

/-- Witness for C5: a concrete two-element batch on the en→fr backend
matches the two single-item translate values. -/
theorem batch_translate_matches_single_witness :
    ([⟨"X", "en", 0.95⟩, ⟨"X", "en", 0.95⟩] : List TranslationResponse).map Except.ok =
      (["a", "b"].map fun x =>
        (TranslationModelHandler.translate bEnFr st0 x "fr" (some "en")).1) :=
  (TranslationModelHandler.batch_translate_matches_single bEnFr st0 ["a", "b"] "fr"
      (some "en") (consistent_st0 bEnFr)).1
    ⟨[⟨"X", "en", 0.95⟩, ⟨"X", "en", 0.95⟩]⟩ _ rfl

/-! ### C6: the POST /detect endpoint -/

/-- Value passed as the `detected_language` field of the endpoint's
response: the endpoint code passes the whole `LanguageDetectionResponse`
object returned by the handler's `detect_language`, not a string, so the
field is modelled as a sum of the two possible shapes. -/
inductive DetectedField where
  | ofStr (s : String)
  | ofResponse (r : LanguageDetectionResponse)
deriving DecidableEq

/-- Shape of the value the `/detect` endpoint constructs. -/
structure DetectEndpointResponse where
  detected_language : DetectedField
  confidence : Rat
deriving DecidableEq

/-- Embeds the module-level `detect_language` endpoint (lines 147-153):
it calls the handler's `detect_language` and then builds a new response
whose `detected_language` field is the whole returned object and whose
confidence is the constant placeholder 0.95; the detector's own
confidence inside the returned object is discarded.  (Pydantic would
reject the non-string field at runtime; the embedding records the field
values as the code constructs them.) -/
def detectEndpoint (b : Backend) (text : String) :
    Except PyError DetectEndpointResponse :=
  match TranslationModelHandler.detect_language b text with
  | .error e => .error e
  | .ok detected =>
    .ok { detected_language := .ofResponse detected, confidence := 0.95 }

/-- Backend for the C6 scenario: the detector predicts
("__label__en", 0.99) for "Hello". -/
def bNine : Backend :=
  { tokRepo := fun _ => .error "not found"
    modRepo := fun _ => .error "not found"
    detector := fun s => if s = "Hello" then .ok ("__label__en", 0.99) else .error "offline" }

/-- C6 fails on the code: on input "Hello", where the detector's top
prediction is ("__label__en", 0.99), the `/detect` endpoint returns the
constant confidence 0.95 instead of the detector's 0.99, and its
`detected_language` field carries the whole detection-response object
rather than the language-code string "en". -/
theorem detect_endpoint_constant_confidence :
    detectEndpoint bNine "Hello" =
      .ok { detected_language :=
              .ofResponse { detected_language := "en", confidence := 0.99 },
            confidence := 0.95 } ∧
    (0.95 : Rat) ≠ 0.99 ∧
    DetectedField.ofResponse { detected_language := "en", confidence := 0.99 } ≠
      DetectedField.ofStr "en" := by
  refine ⟨rfl, by norm_num, ?_⟩
  intro h
  exact DetectedField.noConfusion h

/-! ### C9: the speech-to-text factory -/

/-- A JSON value, as far as the factory inspects one. -/
inductive JsonValue where
  | jstr (s : String)
  | jother
deriving DecidableEq

/-- A parsed JSON configuration object: key/value pairs. -/
abbrev JsonConfig := List (String × JsonValue)

/-- Environment lookup with a default, embedding `os.environ.get(k, d)`. -/
def envOr (env : String → Option String) (k dflt : String) : String :=
  (env k).getD dflt

/-- The handler value the factory returns; the constructor fields are
JSON values because `config.get(...)` can hand a non-string straight
into the handler constructor. -/
inductive SpeechHandler where
  | cloud (api_key endpoint service_provider : JsonValue)
  | edge (model_path : JsonValue)
deriving DecidableEq

/-- Embeds the body of `get_speech_to_text_handler`
(`src/ai-models/speech-to-text/model_handler.py`, lines 87-109).  `env`
embeds `os.environ.get`; `file` is `some config` when the configuration
file opens and parses as JSON, `none` when it is missing or unparseable.
Note: the source's `def` line carries the return annotation
`SpeechToTextHandler`, a name the module never defines (the class is
called `SpeechToTextModelHandler`), so importing the Python module
raises `NameError` before this body can ever run; the embedding models
the body as written. -/
def get_speech_to_text_handler (env : String → Option String)
    (file : Option JsonConfig) : SpeechHandler :=
  match file with
  | none =>
    .cloud (.jstr (envOr env "SPEECH_TO_TEXT_API_KEY" "demo-key"))
           (.jstr (envOr env "SPEECH_TO_TEXT_ENDPOINT" "https://api.speech-to-text.com/v1"))
           (.jstr (envOr env "SPEECH_TO_TEXT_PROVIDER" "generic"))
  | some config =>
    if lookupA config "deployment_mode" = some (.jstr "edge") then
      .edge ((lookupA config "model_path").getD (.jstr "models/speech-to-text"))
    else
      .cloud ((lookupA config "api_key").getD
                (.jstr (envOr env "SPEECH_TO_TEXT_API_KEY" "demo-key")))
             ((lookupA config "endpoint").getD
                (.jstr (envOr env "SPEECH_TO_TEXT_ENDPOINT" "https://api.speech-to-text.com/v1")))
             ((lookupA config "service_provider").getD
                (.jstr (envOr env "SPEECH_TO_TEXT_PROVIDER" "generic")))

/-- Discriminator: did the factory produce an edge handler? -/
def SpeechHandler.isEdge : SpeechHandler → Bool
  | .edge _ => true
  | .cloud _ _ _ => false

/-- C9 describes the intended behaviour of the factory body, which the
embedding confirms: it yields an edge handler exactly when the
configuration file loads, parses, and maps "deployment_mode" to the JSON
string "edge"; any other value yields a cloud handler; and a missing or
unparseable file yields the cloud handler whose api_key, endpoint and
service_provider come from the three named environment variables with
their documented fallback constants.  (In the source as shipped the
factory is unreachable: its return annotation names the undefined
`SpeechToTextHandler`, so the Python module fails at import.) -/
theorem get_speech_to_text_handler_spec (env : String → Option String)
    (file : Option JsonConfig) :
    ((get_speech_to_text_handler env file).isEdge = true ↔
      (∃ config, file = some config ∧
        lookupA config "deployment_mode" = some (.jstr "edge"))) ∧
    get_speech_to_text_handler env none =
      .cloud (.jstr (envOr env "SPEECH_TO_TEXT_API_KEY" "demo-key"))
             (.jstr (envOr env "SPEECH_TO_TEXT_ENDPOINT" "https://api.speech-to-text.com/v1"))
             (.jstr (envOr env "SPEECH_TO_TEXT_PROVIDER" "generic")) := by
  refine ⟨?_, rfl⟩
  cases file with
  | none => simp [get_speech_to_text_handler, SpeechHandler.isEdge]
  | some config =>
    by_cases hmode : lookupA config "deployment_mode" = some (.jstr "edge")
    · simp [get_speech_to_text_handler, hmode, SpeechHandler.isEdge]
    · simp [get_speech_to_text_handler, hmode, SpeechHandler.isEdge]
